import Mathlib

/-!
# Shallow embedding of `guest_distance_calculator` (src/lib.rs)

The Rust crate keeps an in-memory store (per-guest per-thematic scores, a set
of thematic ids with a cached count, a set of candidate guest ids) and ranks
candidate guests by a normalized L1 distance, filtering pairs above a fixed
threshold and truncating each query's result group to a fixed limit.

Modelling choices:
* `f64` is modelled by `Fl`: either `nan` or an exact rational.  IEEE-754
  rounding and infinities are not modelled (every scenario in this development
  stays within exact dyadic arithmetic, and the only division is by a positive
  integer count); NaN propagation and NaN comparison semantics are modelled
  explicitly, since the source's `Ord for Distance` depends on them.
* `HashMap` is modelled by an association list, `HashSet` by a duplicate-free
  list; the unspecified hash-iteration order is abstracted as list order.
* Rust's stable `slice::sort` (by `Ord::cmp` of `Distance`) is modelled by a
  stable insertion sort using the same comparator.
* The `Mutex`es synchronize individual operations; each public operation is
  modelled as a pure function on the whole store state.
-/

namespace GuestDistance

/-- Model of an `f64` score value: NaN, or a finite value as an exact rational. -/
inductive Fl where
  | nan : Fl
  | fin : ℚ → Fl
deriving DecidableEq, Repr

/-- `f64` subtraction: NaN propagates. -/
def Fl.sub : Fl → Fl → Fl
  | .fin a, .fin b => .fin (a - b)
  | _, _ => .nan

/-- `f64::abs`: NaN propagates. -/
def Fl.abs : Fl → Fl
  | .fin a => .fin |a|
  | .nan => .nan

/-- `f64` addition: NaN propagates. -/
def Fl.add : Fl → Fl → Fl
  | .fin a, .fin b => .fin (a + b)
  | _, _ => .nan

/-- `f64` division; only reached in the source with a positive integer divisor. -/
def Fl.div : Fl → Fl → Fl
  | .fin a, .fin b => if b = 0 then .nan else .fin (a / b)
  | _, _ => .nan

/-- The `>` comparison on `f64`: any comparison with NaN is `false`. -/
def Fl.gtb : Fl → Fl → Bool
  | .fin a, .fin b => decide (b < a)
  | _, _ => false

/-- `f64::partial_cmp`: `none` when either operand is NaN. -/
def Fl.pcmp : Fl → Fl → Option Ordering
  | .fin a, .fin b => some (if a < b then .lt else if b < a then .gt else .eq)
  | _, _ => none

/-- Whether the value is NaN. -/
def Fl.isNaN : Fl → Bool
  | .nan => true
  | .fin _ => false

/-- The rational value of a finite `Fl` (0 for NaN; only used under a
no-NaN hypothesis). -/
def Fl.val : Fl → ℚ
  | .nan => 0
  | .fin a => a

/-- The `Distance` record of the source (constructed there under the name
`TempDistance`): a pair of guest ids with their normalized distance. -/
structure Distance where
  guest_a_id : String
  guest_b_id : String
  distance : Fl
deriving DecidableEq, Repr

/-- `Ord for Distance`: `partial_cmp` on the distance field, `unwrap_or(Equal)`,
so a NaN distance compares as equal to everything. -/
def Distance.cmp (d1 d2 : Distance) : Ordering :=
  (Fl.pcmp d1.distance d2.distance).getD Ordering.eq

/-- The `≤` used by the sort: `cmp` does not return `Greater`. -/
def Distance.leb (d1 d2 : Distance) : Bool :=
  match Distance.cmp d1 d2 with
  | .gt => false
  | _ => true

/-- Insertion step of the sort model. -/
def insertDist (x : Distance) : List Distance → List Distance
  | [] => [x]
  | y :: ys => if Distance.leb x y then x :: y :: ys else y :: insertDist x ys

/-- Model of `distances.sort()`: stable insertion sort by `Distance.cmp`. -/
def sortDist : List Distance → List Distance
  | [] => []
  | x :: xs => insertDist x (sortDist xs)

/-- `HashMap` lookup, on the association-list model. -/
def lookupA {β : Type} (k : String) : List (String × β) → Option β
  | [] => none
  | (k', v) :: rest => if k' = k then some v else lookupA k rest

/-- `HashMap::insert`, on the association-list model: overwrite or append. -/
def insertA {β : Type} (k : String) (v : β) : List (String × β) → List (String × β)
  | [] => [(k, v)]
  | (k', w) :: rest => if k' = k then (k', v) :: rest else (k', w) :: insertA k v rest

/-- `const TRESHOLD: f64 = 2.0` (sic). -/
def TRESHOLD : Fl := Fl.fin 2

/-- `const MATCHES_LIMIT: usize = 20`. -/
def MATCHES_LIMIT : Nat := 20

/-- The store state: `GuestDistanceCalculator`'s four resources. -/
structure Store where
  data : List (String × List (String × Fl))
  thematic_ids : List String
  other_guest_ids : List String
  thematics_count : Nat
deriving DecidableEq, Repr

/-- `GuestDistanceCalculator::new()`. -/
def Store.new : Store := ⟨[], [], [], 0⟩

/-- `insert_score`: `data.entry(guest_id).or_insert_with(HashMap::new).insert(thematic_id, score)`. -/
def Store.insert_score (s : Store) (guest_id thematic_id : String) (score : Fl) : Store :=
  let inner := insertA thematic_id score ((lookupA guest_id s.data).getD [])
  { s with data := insertA guest_id inner s.data }

/-- The loop of `insert_thematic_ids`: `if thematic_ids.insert(id) { *thematics_count += 1 }`. -/
def insertThematicLoop : List String → List String → Nat → List String × Nat
  | [], set, cnt => (set, cnt)
  | id :: rest, set, cnt =>
    if id ∈ set then insertThematicLoop rest set cnt
    else insertThematicLoop rest (set ++ [id]) (cnt + 1)

/-- `insert_thematic_ids`. -/
def Store.insert_thematic_ids (s : Store) (ids : List String) : Store :=
  let p := insertThematicLoop ids s.thematic_ids s.thematics_count
  { s with thematic_ids := p.1, thematics_count := p.2 }

/-- The loop of `insert_other_guest_ids`: plain set insertion. -/
def insertGuestLoop : List String → List String → List String
  | [], set => set
  | id :: rest, set =>
    if id ∈ set then insertGuestLoop rest set else insertGuestLoop rest (set ++ [id])

/-- `insert_other_guest_ids`. -/
def Store.insert_other_guest_ids (s : Store) (ids : List String) : Store :=
  { s with other_guest_ids := insertGuestLoop ids s.other_guest_ids }

/-- `get_score`: `data.get(&guest_id).and_then(|m| m.get(&thematic_id).copied())`. -/
def Store.get_score (s : Store) (guest_id thematic_id : String) : Option Fl :=
  (lookupA guest_id s.data).bind (fun m => lookupA thematic_id m)

/-- `calculate_total_distance`: accumulate `|score1 - score2|` over the thematic
registry for the topics where both scores are present, then divide by the cached
count when it is positive, else return `0.0`. -/
def Store.calculate_total_distance (s : Store) (guest_a_id guest_b_id : String) : Fl :=
  let thematics_count := s.thematics_count
  let total := s.thematic_ids.foldl (fun acc thematic_id =>
    match s.get_score guest_a_id thematic_id, s.get_score guest_b_id thematic_id with
    | some score1, some score2 => Fl.add acc (Fl.abs (Fl.sub score1 score2))
    | _, _ => acc) (Fl.fin 0)
  if 0 < thematics_count then Fl.div total (Fl.fin thematics_count) else Fl.fin 0

/-- `sum_distances_on_all_thematics`: threshold filter around `calculate_total_distance`. -/
def Store.sum_distances_on_all_thematics (s : Store) (guest_a_id guest_b_id : String) :
    Option Distance :=
  let total := s.calculate_total_distance guest_a_id guest_b_id
  if Fl.gtb total TRESHOLD then none
  else some ⟨guest_a_id, guest_b_id, total⟩

/-- `calculate_distances`: per queried id, filter candidates through the
threshold, sort the group, truncate to `MATCHES_LIMIT`, and concatenate the
groups in input order. -/
def Store.calculate_distances (s : Store) (guests_slice_ids : List String) : List Distance :=
  guests_slice_ids.flatMap (fun g1_id =>
    (sortDist (s.other_guest_ids.filterMap
      (fun g2_id => s.sum_distances_on_all_thematics g1_id g2_id))).take MATCHES_LIMIT)

/-- `clear`: empty all four resources. -/
def Store.clear (_ : Store) : Store :=
  { data := [], thematic_ids := [], other_guest_ids := [], thematics_count := 0 }

/-- A mutating operation of the public interface. -/
inductive Op where
  | score (guest_id thematic_id : String) (v : Fl)
  | thematics (ids : List String)
  | guests (ids : List String)
  | clearAll
deriving DecidableEq, Repr

/-- Apply one operation to the store. -/
def applyOp (s : Store) : Op → Store
  | .score g t v => s.insert_score g t v
  | .thematics ids => s.insert_thematic_ids ids
  | .guests ids => s.insert_other_guest_ids ids
  | .clearAll => s.clear

/-- Apply a sequence of operations, left to right. -/
def applyOps (s : Store) (ops : List Op) : Store := ops.foldl applyOp s

/-- The contribution of one thematic id to the distance of a pair: the absolute
score difference when both scores are present, `none` otherwise. -/
def pairContribution (s : Store) (a b t : String) : Option Fl :=
  match s.get_score a t, s.get_score b t with
  | some x, some y => some (Fl.abs (Fl.sub x y))
  | _, _ => none

/-- Sum of a list of `f64` values. -/
def sumFl (l : List Fl) : Fl := l.foldr Fl.add (Fl.fin 0)

/-- Specification-side formulation of `total_distance`, written from the spec's
words: the sum, over the topics in the registry where both scores are present,
of the absolute score differences, divided by the cached topic count; `0.0`
when the count is zero.  To be compared with `Store.calculate_total_distance`. -/
def specTotalDistance (s : Store) (a b : String) : Fl :=
  if s.thematics_count = 0 then Fl.fin 0
  else Fl.div (sumFl (s.thematic_ids.filterMap (pairContribution s a b)))
    (Fl.fin s.thematics_count)

/-- The filtered (eligible) candidate records for one queried id, in candidate
registry order. -/
def Store.eligible (s : Store) (g1_id : String) : List Distance :=
  s.other_guest_ids.filterMap (fun g2_id => s.sum_distances_on_all_thematics g1_id g2_id)

/-- The spec's example scenario (§8): topics food/travel, scores for guests
A, B, C, candidates B and C, built through the public interface. -/
def exampleStore : Store :=
  ((((((((Store.new.insert_thematic_ids ["food", "travel"]).insert_score
    "A" "food" (Fl.fin 1)).insert_score
    "A" "travel" (Fl.fin 3)).insert_score
    "B" "food" (Fl.fin (3/2))).insert_score
    "B" "travel" (Fl.fin (7/2))).insert_score
    "C" "food" (Fl.fin 5)).insert_score
    "C" "travel" (Fl.fin 5)).insert_other_guest_ids ["B", "C"])

/-- A store holding a NaN score for guests `a` and `b` on the registered
thematic `t`, with `b` a candidate, built through the public interface. -/
def nanStore : Store :=
  (((Store.new.insert_thematic_ids ["t"]).insert_score
    "a" "t" Fl.nan).insert_score
    "b" "t" Fl.nan).insert_other_guest_ids ["b"]

/-- Twenty-one distinct candidate ids. -/
def rankCandidates : List String :=
  ["c01", "c02", "c03", "c04", "c05", "c06", "c07", "c08", "c09", "c10",
   "c11", "c12", "c13", "c14", "c15", "c16", "c17", "c18", "c19", "c20", "c21"]

/-- A store with twenty-one eligible candidates (no thematics registered, so
every pair is at distance `0.0` and passes the threshold). -/
def rankStore : Store :=
  Store.new.insert_other_guest_ids rankCandidates

/-- Which `(guest, thematic)` score cell an operation writes. -/
def Op.writesScore : Op → String → String → Bool
  | .score g' t' _, g, t => g' = g && t' = t
  | _, _, _ => false

/-! ## Basic algebra of the `f64` model -/

theorem Fl.add_zero_right (x : Fl) : Fl.add x (Fl.fin 0) = x := by
  cases x <;> simp [Fl.add]

theorem Fl.zero_add_left (x : Fl) : Fl.add (Fl.fin 0) x = x := by
  cases x <;> simp [Fl.add]

theorem Fl.add_assoc3 (x y z : Fl) : Fl.add (Fl.add x y) z = Fl.add x (Fl.add y z) := by
  cases x <;> cases y <;> cases z <;> simp [Fl.add, add_assoc]

theorem Fl.abs_sub_comm2 (x y : Fl) : Fl.abs (Fl.sub x y) = Fl.abs (Fl.sub y x) := by
  cases x <;> cases y <;> simp [Fl.sub, Fl.abs, abs_sub_comm]

/-! ## C1: the accumulation loop computes the sum of the present contributions -/

theorem foldl_add_filterMap (f : String → Option Fl) (l : List String) (acc : Fl) :
    l.foldl (fun a t => match f t with | some d => Fl.add a d | none => a) acc
      = Fl.add acc (sumFl (l.filterMap f)) := by
  induction l generalizing acc with
  | nil => simp [sumFl, Fl.add_zero_right]
  | cons t rest ih =>
    rw [List.foldl_cons, ih, List.filterMap_cons]
    cases h : f t with
    | none => simp
    | some d => simp [sumFl, Fl.add_assoc3]

/-- C1: for every pair of guest ids, `calculate_total_distance` equals the sum,
over the topics of the registry where both scores are present, of the absolute
score differences, divided by the cached topic count, and `0.0` when that count
is zero (`specTotalDistance`, written from the spec's words). -/
theorem claim_C1 (s : Store) (a b : String) :
    s.calculate_total_distance a b = specTotalDistance s a b := by
  unfold Store.calculate_total_distance specTotalDistance
  have hstep : (fun (acc : Fl) (t : String) =>
      match s.get_score a t, s.get_score b t with
      | some score1, some score2 => Fl.add acc (Fl.abs (Fl.sub score1 score2))
      | _, _ => acc)
      = fun (acc : Fl) (t : String) =>
        match pairContribution s a b t with
        | some d => Fl.add acc d
        | none => acc := by
    funext acc t
    unfold pairContribution
    cases s.get_score a t <;> cases s.get_score b t <;> rfl
  rw [hstep, foldl_add_filterMap, Fl.zero_add_left]
  rcases Nat.eq_zero_or_pos s.thematics_count with h | h
  · simp [h]
  · simp [h, Nat.pos_iff_ne_zero.mp h]

/-! ## C5: symmetry -/

/-- C5: for every store state and every pair of guest ids, swapping the two
entity arguments of `calculate_total_distance` yields the same value. -/
theorem claim_C5 (s : Store) (a b : String) :
    s.calculate_total_distance a b = s.calculate_total_distance b a := by
  unfold Store.calculate_total_distance
  have hstep : (fun (acc : Fl) (t : String) =>
      match s.get_score a t, s.get_score b t with
      | some score1, some score2 => Fl.add acc (Fl.abs (Fl.sub score1 score2))
      | _, _ => acc)
      = fun (acc : Fl) (t : String) =>
        match s.get_score b t, s.get_score a t with
        | some score1, some score2 => Fl.add acc (Fl.abs (Fl.sub score1 score2))
        | _, _ => acc := by
    funext acc t
    cases s.get_score a t <;> cases s.get_score b t <;> simp [Fl.abs_sub_comm2]
  rw [hstep]

/-! ## C8: clear resets cleanly -/

/-- C8: after `clear` (with no intervening mutations), `calculate_distances`
returns the empty result for every input, and `calculate_total_distance`
between any two ids returns `0.0`. -/
theorem claim_C8 (s : Store) (ids : List String) (a b : String) :
    (s.clear).calculate_distances ids = []
      ∧ (s.clear).calculate_total_distance a b = Fl.fin 0 := by
  constructor
  · simp [Store.clear, Store.calculate_distances, sortDist]
  · rfl

/-! ## C9: the spec's example scenario -/

theorem exampleStore_eq :
    exampleStore =
      ⟨[("A", [("food", Fl.fin 1), ("travel", Fl.fin 3)]),
        ("B", [("food", Fl.fin (3/2)), ("travel", Fl.fin (7/2))]),
        ("C", [("food", Fl.fin 5), ("travel", Fl.fin 5)])],
       ["food", "travel"], ["B", "C"], 2⟩ := rfl

theorem exampleStore_td_AB :
    exampleStore.calculate_total_distance "A" "B" = Fl.fin (1/2) := by
  rw [exampleStore_eq]
  simp [Store.calculate_total_distance, Store.get_score, lookupA,
    Fl.add, Fl.sub, Fl.abs, Fl.div]
  norm_num

theorem exampleStore_td_AC :
    exampleStore.calculate_total_distance "A" "C" = Fl.fin 3 := by
  rw [exampleStore_eq]
  simp [Store.calculate_total_distance, Store.get_score, lookupA,
    Fl.add, Fl.sub, Fl.abs, Fl.div]
  norm_num

theorem exampleStore_calc :
    exampleStore.calculate_distances ["A"] = [⟨"A", "B", Fl.fin (1/2)⟩] := by
  have hog : exampleStore.other_guest_ids = ["B", "C"] := rfl
  simp [Store.calculate_distances, Store.sum_distances_on_all_thematics,
    exampleStore_td_AB, exampleStore_td_AC, hog,
    List.filterMap_cons, Fl.gtb, TRESHOLD, MATCHES_LIMIT, sortDist, insertDist]
  norm_num
  rfl

/-- C9: in the concrete state with topics food/travel, the spec's example
scores, and candidates B and C: `total_distance(A,B) = 0.5`,
`total_distance(A,C) = 3.0`, and `calculate_distances(["A"])` yields exactly
the one record `(A, B, 0.5)`. -/
theorem claim_C9 :
    exampleStore.calculate_total_distance "A" "B" = Fl.fin (1/2)
      ∧ exampleStore.calculate_total_distance "A" "C" = Fl.fin 3
      ∧ exampleStore.calculate_distances ["A"] = [⟨"A", "B", Fl.fin (1/2)⟩] :=
  ⟨exampleStore_td_AB, exampleStore_td_AC, exampleStore_calc⟩

/-! ## Association-list lemmas (HashMap model) -/

theorem lookupA_insertA_self {β : Type} (k : String) (v : β) (l : List (String × β)) :
    lookupA k (insertA k v l) = some v := by
  induction l with
  | nil => simp [insertA, lookupA]
  | cons p rest ih =>
    obtain ⟨k', w⟩ := p
    by_cases h : k' = k <;> simp [insertA, lookupA, h, ih]

theorem lookupA_insertA_ne {β : Type} {k k' : String} (h : k ≠ k') (v : β)
    (l : List (String × β)) : lookupA k' (insertA k v l) = lookupA k' l := by
  induction l with
  | nil => simp [insertA, lookupA, h]
  | cons p rest ih =>
    obtain ⟨k'', w⟩ := p
    by_cases h2 : k'' = k
    · subst h2
      simp [insertA, lookupA, h, ih]
    · simp [insertA, lookupA, h2, ih]

/-! ## C7: get_score / insert_score -/

theorem get_score_insert_self (s : Store) (g t : String) (v : Fl) :
    (s.insert_score g t v).get_score g t = some v := by
  simp [Store.insert_score, Store.get_score, lookupA_insertA_self]

theorem get_score_insert_other (s : Store) {g t g' t' : String} (v : Fl)
    (h : g ≠ g' ∨ t ≠ t') :
    (s.insert_score g t v).get_score g' t' = s.get_score g' t' := by
  by_cases hg : g = g'
  · subst hg
    have ht : t ≠ t' := h.resolve_left (fun hc => hc rfl)
    simp only [Store.insert_score, Store.get_score, lookupA_insertA_self,
      Option.bind_some, Option.bind]
    rw [lookupA_insertA_ne ht]
    cases hd : lookupA g s.data with
    | none => simp [lookupA]
    | some m => simp
  · simp only [Store.insert_score, Store.get_score]
    rw [lookupA_insertA_ne hg]

theorem get_score_applyOp_none {s : Store} {g t : String} {op : Op}
    (hs : s.get_score g t = none) (hop : op.writesScore g t = false) :
    (applyOp s op).get_score g t = none := by
  cases op with
  | score g' t' v =>
    have hne : g' ≠ g ∨ t' ≠ t := by
      simp [Op.writesScore] at hop
      by_cases h : g' = g
      · exact Or.inr (hop h)
      · exact Or.inl h
    rw [applyOp, get_score_insert_other _ v hne, hs]
  | thematics ids => exact hs
  | guests ids => exact hs
  | clearAll => rfl

theorem get_score_applyOps_none {g t : String} (ops : List Op) (s : Store)
    (hs : s.get_score g t = none) (hops : ∀ op ∈ ops, op.writesScore g t = false) :
    (applyOps s ops).get_score g t = none := by
  induction ops generalizing s with
  | nil => exact hs
  | cons op rest ih =>
    rw [applyOps, List.foldl_cons]
    exact ih (applyOp s op)
      (get_score_applyOp_none hs (hops op (List.mem_cons_self op rest)))
      (fun o ho => hops o (List.mem_cons_of_mem op ho))

/-- C7: `get_score` returns the score of the most recent `insert_score` for a
pair (a later insert overwrites an earlier one and leaves every other cell
unchanged), and returns `none` — not an error — for a cell no operation of the
history ever wrote. -/
theorem claim_C7 :
    (∀ (s : Store) (g t : String) (v : Fl),
        (s.insert_score g t v).get_score g t = some v)
      ∧ (∀ (s : Store) (g t g' t' : String) (v : Fl), g ≠ g' ∨ t ≠ t' →
          (s.insert_score g t v).get_score g' t' = s.get_score g' t')
      ∧ (∀ (ops : List Op) (g t : String),
          (∀ op ∈ ops, op.writesScore g t = false) →
          (applyOps Store.new ops).get_score g t = none) :=
  ⟨fun s g t v => get_score_insert_self s g t v,
   fun s g t g' t' v h => get_score_insert_other s v h,
   fun ops g t hops => get_score_applyOps_none ops Store.new rfl hops⟩

/-- Witness for C7 at concrete inputs: overwriting `("g","t")` twice keeps the
latest value, an insert at `("g","t")` does not disturb `("h","t")`, and a
history that never writes `("g","t")` leaves it absent. -/
theorem claim_C7_witness :
    ((Store.new.insert_score "g" "t" (Fl.fin 1)).insert_score "g" "t" (Fl.fin 2)).get_score
        "g" "t" = some (Fl.fin 2)
      ∧ (Store.new.insert_score "g" "t" (Fl.fin 1)).get_score "h" "t"
          = Store.new.get_score "h" "t"
      ∧ (applyOps Store.new [Op.thematics ["x"], Op.score "g" "u" (Fl.fin 1)]).get_score
          "g" "t" = none :=
  ⟨claim_C7.1 (Store.new.insert_score "g" "t" (Fl.fin 1)) "g" "t" (Fl.fin 2),
   claim_C7.2.1 Store.new "g" "t" "h" "t" (Fl.fin 1) (Or.inl (by decide)),
   claim_C7.2.2 [Op.thematics ["x"], Op.score "g" "u" (Fl.fin 1)] "g" "t" (by
     intro op hop
     rcases List.mem_cons.mp hop with h | h
     · subst h; rfl
     · rcases List.mem_cons.mp h with h2 | h2
       · subst h2; simp [Op.writesScore]
       · simp at h2)⟩

/-! ## C6: the cached thematic count equals the size of the thematic set -/

theorem insertThematicLoop_inv (ids : List String) (set : List String) (cnt : Nat)
    (hlen : cnt = set.length) (hnd : set.Nodup) :
    (insertThematicLoop ids set cnt).2 = (insertThematicLoop ids set cnt).1.length
      ∧ (insertThematicLoop ids set cnt).1.Nodup := by
  induction ids generalizing set cnt with
  | nil => exact ⟨hlen.symm ▸ rfl, hnd⟩
  | cons id rest ih =>
    by_cases h : id ∈ set
    · rw [insertThematicLoop, if_pos h]
      exact ih set cnt hlen hnd
    · rw [insertThematicLoop, if_neg h]
      refine ih (set ++ [id]) (cnt + 1) (by simp [hlen]) ?_
      simp [List.nodup_append, hnd, h]

theorem insertThematicLoop_mem (ids : List String) (set : List String) (cnt : Nat)
    (h : ∀ id ∈ ids, id ∈ set) : insertThematicLoop ids set cnt = (set, cnt) := by
  induction ids with
  | nil => rfl
  | cons id rest ih =>
    rw [insertThematicLoop, if_pos (h id (List.mem_cons_self id rest))]
    exact ih (fun i hi => h i (List.mem_cons_of_mem id hi))

theorem insertThematicLoop_replicate (n : Nat) (hn : 0 < n) (id : String)
    (set : List String) (cnt : Nat) :
    (insertThematicLoop (List.replicate n id) set cnt).2
      = cnt + (if id ∈ set then 0 else 1) := by
  cases n with
  | zero => exact absurd hn (by simp)
  | succ m =>
    rw [List.replicate_succ, insertThematicLoop]
    by_cases h : id ∈ set
    · rw [if_pos h, if_pos h,
        insertThematicLoop_mem _ _ _ (fun i hi => (List.eq_of_mem_replicate hi) ▸ h)]
      rfl
    · rw [if_neg h, if_neg h,
        insertThematicLoop_mem _ _ _ (fun i hi => by
          rw [List.eq_of_mem_replicate hi]
          exact List.mem_append_right set (List.mem_singleton.mpr rfl))]

/-- The count/size invariant of the thematic registry. -/
def ThematicInv (s : Store) : Prop :=
  s.thematics_count = s.thematic_ids.length ∧ s.thematic_ids.Nodup

theorem thematicInv_applyOp {s : Store} (h : ThematicInv s) (op : Op) :
    ThematicInv (applyOp s op) := by
  cases op with
  | score g t v => exact h
  | thematics ids => exact insertThematicLoop_inv ids s.thematic_ids s.thematics_count h.1 h.2
  | guests ids => exact h
  | clearAll => exact ⟨rfl, List.nodup_nil⟩

theorem thematicInv_applyOps (ops : List Op) (s : Store) (h : ThematicInv s) :
    ThematicInv (applyOps s ops) := by
  induction ops generalizing s with
  | nil => exact h
  | cons op rest ih =>
    rw [applyOps, List.foldl_cons]
    exact ih (applyOp s op) (thematicInv_applyOp h op)

/-- C6: after any sequence of store operations the cached thematic count equals
the size of the (duplicate-free) thematic id set; and inserting the same id
`n ≥ 1` times in one batch increases the count by exactly 1 when the id is new
and by 0 when it is already present (so repeats across batches add nothing). -/
theorem claim_C6 :
    (∀ ops : List Op,
        (applyOps Store.new ops).thematics_count
            = (applyOps Store.new ops).thematic_ids.length
          ∧ (applyOps Store.new ops).thematic_ids.Nodup)
      ∧ (∀ (s : Store) (id : String) (n : Nat), 0 < n →
          (s.insert_thematic_ids (List.replicate n id)).thematics_count
            = s.thematics_count + (if id ∈ s.thematic_ids then 0 else 1)) :=
  ⟨fun ops => thematicInv_applyOps ops Store.new ⟨rfl, List.nodup_nil⟩,
   fun s id n hn =>
     insertThematicLoop_replicate n hn id s.thematic_ids s.thematics_count⟩

/-- Witness for C6 at concrete inputs: a history inserting `"a"` twice and
`"b"` once satisfies the invariant, and inserting `"a"` three times into the
empty store raises the count by exactly 1. -/
theorem claim_C6_witness :
    ((applyOps Store.new [Op.thematics ["a", "a", "b"]]).thematics_count
          = (applyOps Store.new [Op.thematics ["a", "a", "b"]]).thematic_ids.length
        ∧ (applyOps Store.new [Op.thematics ["a", "a", "b"]]).thematic_ids.Nodup)
      ∧ (Store.new.insert_thematic_ids (List.replicate 3 "a")).thematics_count
          = Store.new.thematics_count + (if "a" ∈ Store.new.thematic_ids then 0 else 1) :=
  ⟨claim_C6.1 [Op.thematics ["a", "a", "b"]],
   claim_C6.2 Store.new "a" 3 (by decide)⟩

/-! ## Lemmas about the sort model -/

theorem Distance.leb_total (d1 d2 : Distance) :
    Distance.leb d1 d2 = true ∨ Distance.leb d2 d1 = true := by
  cases h1 : d1.distance with
  | nan => left; simp [Distance.leb, Distance.cmp, Fl.pcmp, h1]
  | fin a =>
    cases h2 : d2.distance with
    | nan => left; simp [Distance.leb, Distance.cmp, Fl.pcmp, h1, h2]
    | fin b =>
      rcases lt_trichotomy a b with h | h | h
      · left
        simp [Distance.leb, Distance.cmp, Fl.pcmp, h1, h2, h]
      · left
        simp [Distance.leb, Distance.cmp, Fl.pcmp, h1, h2, h, lt_irrefl]
      · right
        simp [Distance.leb, Distance.cmp, Fl.pcmp, h1, h2, h]

theorem perm_insertDist (x : Distance) (l : List Distance) :
    (insertDist x l).Perm (x :: l) := by
  induction l with
  | nil => exact List.Perm.refl _
  | cons y ys ih =>
    rw [insertDist]
    by_cases h : Distance.leb x y = true
    · rw [if_pos h]
    · rw [if_neg h]
      exact (ih.cons y).trans (List.Perm.swap x y ys)

theorem perm_sortDist (l : List Distance) : (sortDist l).Perm l := by
  induction l with
  | nil => exact List.Perm.refl _
  | cons x xs ih =>
    rw [sortDist]
    exact (perm_insertDist x (sortDist xs)).trans (ih.cons x)

theorem mem_insertDist {z x : Distance} {l : List Distance} (h : z ∈ insertDist x l) :
    z = x ∨ z ∈ l :=
  List.mem_cons.mp ((perm_insertDist x l).mem_iff.mp h)

theorem head?_insertDist (x : Distance) (l : List Distance) :
    (insertDist x l).head? = some x ∨ (insertDist x l).head? = l.head? := by
  cases l with
  | nil => left; rfl
  | cons y ys =>
    rw [insertDist]
    by_cases h : Distance.leb x y = true
    · rw [if_pos h]; left; rfl
    · rw [if_neg h]; right; rfl

theorem chain'_insertDist (x : Distance) (l : List Distance)
    (h : l.Chain' (fun a b => Distance.leb a b = true)) :
    (insertDist x l).Chain' (fun a b => Distance.leb a b = true) := by
  induction l with
  | nil => simp [insertDist]
  | cons y ys ih =>
    rw [List.chain'_cons'] at h
    rw [insertDist]
    by_cases hxy : Distance.leb x y = true
    · rw [if_pos hxy]
      refine List.chain'_cons'.mpr ⟨?_, List.chain'_cons'.mpr h⟩
      intro z hz
      simp only [List.head?_cons, Option.mem_def, Option.some.injEq] at hz
      rw [← hz]
      exact hxy
    · rw [if_neg hxy]
      refine List.chain'_cons'.mpr ⟨?_, ih h.2⟩
      intro z hz
      rcases head?_insertDist x ys with h1 | h1
      · rw [h1] at hz
        simp only [Option.mem_def, Option.some.injEq] at hz
        rw [← hz]
        rcases Distance.leb_total x y with hc | hc
        · exact absurd hc hxy
        · exact hc
      · rw [h1] at hz
        exact h.1 z hz

theorem chain'_sortDist (l : List Distance) :
    (sortDist l).Chain' (fun a b => Distance.leb a b = true) := by
  induction l with
  | nil => simp [sortDist]
  | cons x xs ih =>
    rw [sortDist]
    exact chain'_insertDist x _ ih

theorem leb_iff_val {d1 d2 : Distance} (h1 : d1.distance.isNaN = false)
    (h2 : d2.distance.isNaN = false) :
    Distance.leb d1 d2 = true ↔ d1.distance.val ≤ d2.distance.val := by
  cases hd1 : d1.distance with
  | nan => rw [hd1] at h1; simp [Fl.isNaN] at h1
  | fin a =>
    cases hd2 : d2.distance with
    | nan => rw [hd2] at h2; simp [Fl.isNaN] at h2
    | fin b =>
      rcases lt_trichotomy a b with h | h | h
      · simp [Distance.leb, Distance.cmp, Fl.pcmp, Fl.val, hd1, hd2, h, le_of_lt h]
      · simp [Distance.leb, Distance.cmp, Fl.pcmp, Fl.val, hd1, hd2, h, lt_irrefl, le_refl]
      · simp [Distance.leb, Distance.cmp, Fl.pcmp, Fl.val, hd1, hd2, h,
          not_lt_of_gt h, not_le_of_gt h]

theorem pairwise_insertDist {x : Distance} {l : List Distance}
    (hx : x.distance.isNaN = false) (hl : ∀ d ∈ l, d.distance.isNaN = false)
    (hp : l.Pairwise (fun a b => a.distance.val ≤ b.distance.val)) :
    (insertDist x l).Pairwise (fun a b => a.distance.val ≤ b.distance.val) := by
  induction l with
  | nil => simp [insertDist]
  | cons y ys ih =>
    have hy : y.distance.isNaN = false := hl y (List.mem_cons_self y ys)
    have hys : ∀ d ∈ ys, d.distance.isNaN = false :=
      fun d hd => hl d (List.mem_cons_of_mem y hd)
    rw [List.pairwise_cons] at hp
    rw [insertDist]
    by_cases hxy : Distance.leb x y = true
    · rw [if_pos hxy]
      have hxyv : x.distance.val ≤ y.distance.val := (leb_iff_val hx hy).mp hxy
      refine List.pairwise_cons.mpr ⟨?_, List.pairwise_cons.mpr hp⟩
      intro z hz
      rcases List.mem_cons.mp hz with rfl | hz'
      · exact hxyv
      · exact le_trans hxyv (hp.1 z hz')
    · rw [if_neg hxy]
      have hyx : y.distance.val ≤ x.distance.val := by
        rcases Distance.leb_total x y with hc | hc
        · exact absurd hc hxy
        · exact (leb_iff_val hy hx).mp hc
      refine List.pairwise_cons.mpr ⟨?_, ih hys hp.2⟩
      intro z hz
      rcases mem_insertDist hz with rfl | hz'
      · exact hyx
      · exact hp.1 z hz'

theorem pairwise_sortDist {l : List Distance} (hl : ∀ d ∈ l, d.distance.isNaN = false) :
    (sortDist l).Pairwise (fun a b => a.distance.val ≤ b.distance.val) := by
  induction l with
  | nil => simp [sortDist]
  | cons x xs ih =>
    rw [sortDist]
    exact pairwise_insertDist (hl x (List.mem_cons_self x xs))
      (fun d hd => hl d (List.mem_cons_of_mem x ((perm_sortDist xs).mem_iff.mp hd)))
      (ih (fun d hd => hl d (List.mem_cons_of_mem x hd)))

/-! ## Result-membership helpers -/

theorem calc_singleton (s : Store) (g : String) :
    s.calculate_distances [g] = (sortDist (s.eligible g)).take MATCHES_LIMIT := by
  simp [Store.calculate_distances, Store.eligible]

theorem sum_distances_eq_some {s : Store} {a b : String} {d : Distance}
    (h : s.sum_distances_on_all_thematics a b = some d) :
    d = ⟨a, b, s.calculate_total_distance a b⟩
      ∧ Fl.gtb (s.calculate_total_distance a b) TRESHOLD = false := by
  unfold Store.sum_distances_on_all_thematics at h
  cases hgt : Fl.gtb (s.calculate_total_distance a b) TRESHOLD with
  | true => rw [if_pos hgt] at h; exact absurd h (by simp)
  | false =>
    rw [if_neg (by rw [hgt]; exact Bool.false_ne_true)] at h
    exact ⟨(Option.some.inj h).symm, rfl⟩

theorem mem_calculate_distances {s : Store} {ids : List String} {d : Distance}
    (h : d ∈ s.calculate_distances ids) :
    ∃ g1 ∈ ids, ∃ g2 ∈ s.other_guest_ids,
      s.sum_distances_on_all_thematics g1 g2 = some d := by
  rw [Store.calculate_distances] at h
  rcases List.mem_flatMap.mp h with ⟨g1, hg1, hd⟩
  have hd2 := (perm_sortDist _).mem_iff.mp (List.take_subset _ _ hd)
  rcases List.mem_filterMap.mp hd2 with ⟨g2, hg2, hsum⟩
  exact ⟨g1, hg1, g2, hg2, hsum⟩

/-! ## C2: the threshold filter -/

/-- C2: `sum_distances_on_all_thematics` returns `none` exactly when the total
distance exceeds the 2.0 threshold; consequently every record in the output of
`calculate_distances` has distance not exceeding the threshold, and a pair
whose total distance exceeds the threshold never appears in the output, under
any registry contents. -/
theorem claim_C2 :
    (∀ (s : Store) (a b : String),
        s.sum_distances_on_all_thematics a b = none
          ↔ Fl.gtb (s.calculate_total_distance a b) TRESHOLD = true)
      ∧ (∀ (s : Store) (ids : List String) (d : Distance),
          d ∈ s.calculate_distances ids → Fl.gtb d.distance TRESHOLD = false)
      ∧ (∀ (s : Store) (ids : List String) (g1 g2 : String),
          Fl.gtb (s.calculate_total_distance g1 g2) TRESHOLD = true →
          ∀ d ∈ s.calculate_distances ids,
            ¬(d.guest_a_id = g1 ∧ d.guest_b_id = g2)) := by
  refine ⟨?_, ?_, ?_⟩
  · intro s a b
    unfold Store.sum_distances_on_all_thematics
    cases hgt : Fl.gtb (s.calculate_total_distance a b) TRESHOLD <;> simp [hgt]
  · intro s ids d hd
    rcases mem_calculate_distances hd with ⟨g1, _, g2, _, hsum⟩
    rcases sum_distances_eq_some hsum with ⟨hdef, hle⟩
    rw [hdef]
    exact hle
  · rintro s ids g1 g2 hgt d hd ⟨ha, hb⟩
    rcases mem_calculate_distances hd with ⟨g1', _, g2', _, hsum⟩
    rcases sum_distances_eq_some hsum with ⟨hdef, hle⟩
    have ha' : g1' = g1 := by rw [hdef] at ha; exact ha
    have hb' : g2' = g2 := by rw [hdef] at hb; exact hb
    rw [← ha', ← hb'] at hgt
    have := hgt.symm.trans hle
    simp at this

theorem exampleStore_eligible :
    exampleStore.eligible "A" = [⟨"A", "B", Fl.fin (1/2)⟩] := by
  have hog : exampleStore.other_guest_ids = ["B", "C"] := rfl
  simp [Store.eligible, hog, Store.sum_distances_on_all_thematics,
    exampleStore_td_AB, exampleStore_td_AC,
    List.filterMap_cons, Fl.gtb, TRESHOLD]
  norm_num

/-- Witness for C2 on the example scenario: the surviving record `(A, B, 0.5)`
does not exceed the threshold, and the pair `(A, C)` (distance 3.0 > 2.0)
does not appear in the output. -/
theorem claim_C2_witness :
    Fl.gtb ((⟨"A", "B", Fl.fin (1/2)⟩ : Distance)).distance TRESHOLD = false
      ∧ ¬(((⟨"A", "B", Fl.fin (1/2)⟩ : Distance)).guest_a_id = "A"
            ∧ ((⟨"A", "B", Fl.fin (1/2)⟩ : Distance)).guest_b_id = "C") :=
  ⟨claim_C2.2.1 exampleStore ["A"] ⟨"A", "B", Fl.fin (1/2)⟩
      (by rw [exampleStore_calc]; exact List.mem_singleton.mpr rfl),
   claim_C2.2.2 exampleStore ["A"] "A" "C"
      (by rw [exampleStore_td_AC]; simp [Fl.gtb, TRESHOLD]; norm_num)
      ⟨"A", "B", Fl.fin (1/2)⟩
      (by rw [exampleStore_calc]; exact List.mem_singleton.mpr rfl)⟩

/-! ## C4: concatenation of per-queried-id sorted groups -/

/-- C4: the output of `calculate_distances` is the concatenation of one group
per queried id in input order (so groups are never interleaved or globally
re-sorted); every record of a group carries its queried id; each group is
sorted non-decreasingly by the record ordering; and, whenever no eligible
distance of the group is NaN, its rational distance values are pairwise
non-decreasing. -/
theorem claim_C4 :
    (∀ (s : Store) (xs ys : List String),
        s.calculate_distances (xs ++ ys)
          = s.calculate_distances xs ++ s.calculate_distances ys)
      ∧ (∀ (s : Store) (x : String) (d : Distance),
          d ∈ s.calculate_distances [x] → d.guest_a_id = x)
      ∧ (∀ (s : Store) (x : String),
          (s.calculate_distances [x]).Chain' (fun a b => Distance.leb a b = true))
      ∧ (∀ (s : Store) (x : String),
          (∀ d ∈ s.eligible x, d.distance.isNaN = false) →
          (s.calculate_distances [x]).Pairwise
            (fun a b => a.distance.val ≤ b.distance.val)) := by
  refine ⟨?_, ?_, ?_, ?_⟩
  · intro s xs ys
    simp [Store.calculate_distances]
  · intro s x d hd
    rcases mem_calculate_distances hd with ⟨g1, hg1, g2, _, hsum⟩
    rcases sum_distances_eq_some hsum with ⟨hdef, _⟩
    have hg : g1 = x := by simpa using hg1
    rw [hdef]
    exact hg
  · intro s x
    rw [calc_singleton]
    exact (chain'_sortDist _).take MATCHES_LIMIT
  · intro s x hfin
    rw [calc_singleton]
    exact List.Pairwise.sublist (List.take_sublist _ _) (pairwise_sortDist hfin)

/-- Witness for C4 on the example scenario: the single record of A's group
carries queried id A, and the group's distance values are pairwise
non-decreasing. -/
theorem claim_C4_witness :
    ((⟨"A", "B", Fl.fin (1/2)⟩ : Distance)).guest_a_id = "A"
      ∧ (exampleStore.calculate_distances ["A"]).Pairwise
          (fun a b => a.distance.val ≤ b.distance.val) :=
  ⟨claim_C4.2.1 exampleStore "A" ⟨"A", "B", Fl.fin (1/2)⟩
      (by rw [exampleStore_calc]; exact List.mem_singleton.mpr rfl),
   claim_C4.2.2.2 exampleStore "A" (by
     rw [exampleStore_eligible]
     intro d hd
     rw [List.mem_singleton.mp hd]
     rfl)⟩


/-! ## C3: truncation to the 20 smallest -/

/-- C3: for a queried id with more than `MATCHES_LIMIT = 20` eligible
candidates (none of them at a NaN distance), `calculate_distances` returns
exactly 20 records for it, and they are 20 smallest-distance records: the
eligible records split, up to permutation, into the returned group and a
remainder every element of which is at distance at least that of every
returned record. -/
theorem claim_C3 (s : Store) (g : String)
    (h20 : MATCHES_LIMIT < (s.eligible g).length)
    (hfin : ∀ d ∈ s.eligible g, d.distance.isNaN = false) :
    (s.calculate_distances [g]).length = MATCHES_LIMIT
      ∧ ∃ rest : List Distance,
          (s.eligible g).Perm (s.calculate_distances [g] ++ rest)
            ∧ ∀ x ∈ s.calculate_distances [g], ∀ y ∈ rest,
                x.distance.val ≤ y.distance.val := by
  have hlen : (sortDist (s.eligible g)).length = (s.eligible g).length :=
    (perm_sortDist _).length_eq
  have hsplit : (sortDist (s.eligible g)).take MATCHES_LIMIT
      ++ (sortDist (s.eligible g)).drop MATCHES_LIMIT = sortDist (s.eligible g) :=
    List.take_append_drop _ _
  refine ⟨?_, (sortDist (s.eligible g)).drop MATCHES_LIMIT, ?_, ?_⟩
  · rw [calc_singleton, List.length_take, hlen]
    exact Nat.min_eq_left (le_of_lt h20)
  · rw [calc_singleton, hsplit]
    exact (perm_sortDist _).symm
  · intro x hx y hy
    have hp : (sortDist (s.eligible g)).Pairwise
        (fun a b => a.distance.val ≤ b.distance.val) := pairwise_sortDist hfin
    have hp2 : ((sortDist (s.eligible g)).take MATCHES_LIMIT
        ++ (sortDist (s.eligible g)).drop MATCHES_LIMIT).Pairwise
        (fun a b => a.distance.val ≤ b.distance.val) := by rwa [hsplit]
    refine (List.pairwise_append.mp hp2).2.2 x ?_ y hy
    rw [calc_singleton] at hx
    exact hx

theorem filterMap_eq_map_of {α β : Type} (f : α → Option β) (g : α → β)
    (l : List α) (h : ∀ x ∈ l, f x = some (g x)) : l.filterMap f = l.map g := by
  induction l with
  | nil => rfl
  | cons a rest ih =>
    rw [List.filterMap_cons, h a (List.mem_cons_self a rest), List.map_cons,
      ih (fun x hx => h x (List.mem_cons_of_mem a hx))]

theorem rankStore_eligible :
    rankStore.eligible "q" = rankCandidates.map (fun c => ⟨"q", c, Fl.fin 0⟩) := by
  have hog : rankStore.other_guest_ids = rankCandidates := rfl
  have htd : ∀ c, rankStore.calculate_total_distance "q" c = Fl.fin 0 := fun c => rfl
  have hgt : Fl.gtb (Fl.fin 0) TRESHOLD = false := by
    simp [Fl.gtb, TRESHOLD]
  rw [Store.eligible, hog]
  refine filterMap_eq_map_of _ _ _ (fun c _ => ?_)
  unfold Store.sum_distances_on_all_thematics
  rw [htd c, if_neg (by rw [hgt]; exact Bool.false_ne_true)]

/-- Witness for C3: a store with 21 eligible candidates, all at distance 0,
returns exactly 20 records, a permutation-split of the eligible list with the
remainder no closer than any returned record. -/
theorem claim_C3_witness :
    (rankStore.calculate_distances ["q"]).length = MATCHES_LIMIT
      ∧ ∃ rest : List Distance,
          (rankStore.eligible "q").Perm (rankStore.calculate_distances ["q"] ++ rest)
            ∧ ∀ x ∈ rankStore.calculate_distances ["q"], ∀ y ∈ rest,
                x.distance.val ≤ y.distance.val :=
  claim_C3 rankStore "q"
    (by rw [rankStore_eligible, List.length_map]; decide)
    (by
      rw [rankStore_eligible]
      intro d hd
      rcases List.mem_map.mp hd with ⟨c, _, rfl⟩
      rfl)

/-! ## C10: NaN distances pass the filter and compare as equal -/

theorem nanStore_td : nanStore.calculate_total_distance "a" "b" = Fl.nan := rfl

theorem nanStore_calc : nanStore.calculate_distances ["a"] = [⟨"a", "b", Fl.nan⟩] := rfl

/-- C10: when `calculate_total_distance` evaluates to NaN, the comparison
`NaN > 2.0` is false, so the pair is not filtered: `sum_distances_on_all_thematics`
returns a record with NaN distance; such a record appears in the output of
`calculate_distances` (concrete NaN store), and under the record ordering a
NaN-distance record compares as equal to every record. -/
theorem claim_C10 :
    (∀ (s : Store) (a b : String), s.calculate_total_distance a b = Fl.nan →
        s.sum_distances_on_all_thematics a b = some ⟨a, b, Fl.nan⟩)
      ∧ Fl.gtb Fl.nan TRESHOLD = false
      ∧ (∀ d e : Distance, d.distance = Fl.nan →
          Distance.cmp d e = Ordering.eq ∧ Distance.cmp e d = Ordering.eq)
      ∧ nanStore.calculate_distances ["a"] = [⟨"a", "b", Fl.nan⟩] := by
  refine ⟨?_, rfl, ?_, nanStore_calc⟩
  · intro s a b h
    unfold Store.sum_distances_on_all_thematics
    rw [h]
    rfl
  · intro d e h
    cases he : e.distance <;>
      exact ⟨by simp [Distance.cmp, Fl.pcmp, h, he], by simp [Distance.cmp, Fl.pcmp, h, he]⟩

/-- Witness for C10: in the NaN store the pair `(a, b)` is kept with a NaN
distance, and a NaN-distance record compares as equal to a finite-distance
record in both directions. -/
theorem claim_C10_witness :
    nanStore.sum_distances_on_all_thematics "a" "b" = some ⟨"a", "b", Fl.nan⟩
      ∧ Distance.cmp ⟨"a", "b", Fl.nan⟩ ⟨"x", "y", Fl.fin 7⟩ = Ordering.eq
        ∧ Distance.cmp ⟨"x", "y", Fl.fin 7⟩ ⟨"a", "b", Fl.nan⟩ = Ordering.eq :=
  ⟨claim_C10.1 nanStore "a" "b" nanStore_td,
   claim_C10.2.2.1 ⟨"a", "b", Fl.nan⟩ ⟨"x", "y", Fl.fin 7⟩ rfl⟩

end GuestDistance
